import Mathlib

/-!
Verification development for the gateway server (`server/src/index.js`-style
source): agent-process supervisor, tool-config store, access policy, and the
streaming session proxy. Each JS function used by the specification claims is
shallowly embedded as an executable Lean definition; asynchronous effects
(file reads, JWT verification, backing-process events, port probes) are passed
in explicitly as values describing the outcome the JS runtime would observe.
-/

/-- JS `a || b` on strings: `""` is falsy, anything else truthy. -/
def jsOr (a b : String) : String :=
  if a = "" then b else a

/-- JS `String.prototype.toLowerCase` (ASCII range), kernel-reducible. -/
def strLower (s : String) : String := ⟨s.data.map Char.toLower⟩

/-- JS `String.prototype.toUpperCase` (ASCII range), kernel-reducible. -/
def strUpper (s : String) : String := ⟨s.data.map Char.toUpper⟩

/-- JS `String.prototype.trim`: strip leading/trailing whitespace. -/
def strTrim (s : String) : String :=
  ⟨((s.data.dropWhile Char.isWhitespace).reverse.dropWhile
      Char.isWhitespace).reverse⟩

/-- Whether the first char list begins with the second. -/
def listBegins : List Char → List Char → Bool
  | _, [] => true
  | [], _ :: _ => false
  | a :: as, b :: bs => a = b && listBegins as bs

/-- JS `String.prototype.startsWith`. -/
def strStartsWith (s pat : String) : Bool := listBegins s.data pat.data

/-- JS `String.prototype.endsWith`. -/
def strEndsWith (s pat : String) : Bool :=
  listBegins s.data.reverse pat.data.reverse

/-- JS `String.prototype.slice(n)` for a non-negative `n` (code points). -/
def strDrop (s : String) (n : Nat) : String := ⟨s.data.drop n⟩

/-- JS `String.prototype.length` (code points; ASCII-faithful). -/
def strLength (s : String) : Nat := s.data.length

def splitCommaAux : List Char → List Char → List String
  | [], acc => [⟨acc.reverse⟩]
  | c :: rest, acc =>
    if c = ',' then ⟨acc.reverse⟩ :: splitCommaAux rest []
    else splitCommaAux rest (c :: acc)

/-- JS `String.prototype.split(",")`. -/
def splitComma (s : String) : List String := splitCommaAux s.data []

def parseNatAux : List Char → Nat → Option Nat
  | [], acc => some acc
  | c :: rest, acc =>
    if c.isDigit then parseNatAux rest (acc * 10 + (c.toNat - 48)) else none

/-- Parse a non-empty all-digit string as a natural number. -/
def parseNat (s : String) : Option Nat :=
  match s.data with
  | [] => none
  | l => parseNatAux l 0

/-- Parse an optionally-negated decimal integer string; `none` models the JS
`NaN` outcome on the string shapes this server handles. -/
def parseInt (s : String) : Option Int :=
  match s.data with
  | '-' :: rest => (parseNat ⟨rest⟩).map (fun n => -(n : Int))
  | _ => (parseNat s).map Int.ofNat

/-- JS `Array.from(new Set(l))`: de-duplicate keeping first occurrences. -/
def jsSetDedup (l : List String) : List String :=
  l.foldl (fun acc a => if a ∈ acc then acc else acc ++ [a]) []

/-- A JSON-like value, as produced by `JSON.parse` / the SDK payloads. -/
inductive JVal where
  | null
  | bool (b : Bool)
  | num (n : Int)
  | str (s : String)
  | arr (elems : List JVal)
  | obj (fields : List (String × JVal))
deriving Repr, Inhabited

/-- JS `v && typeof v === "object"`: a non-null object (arrays included). -/
def isJsObject : JVal → Bool
  | .obj _ => true
  | .arr _ => true
  | _ => false

/-- Last-wins field lookup, matching `JSON.parse` duplicate-key semantics. -/
def lookupLast : List (String × JVal) → String → Option JVal
  | [], _ => none
  | (k, v) :: rest, q =>
    match lookupLast rest q with
    | some r => some r
    | none => if k = q then some v else none

/-- JS property access `v?.k`: defined only on plain objects here. -/
def jsGet : JVal → String → Option JVal
  | .obj l, k => lookupLast l k
  | _, _ => none

/-- JS `Object.entries`, which on an array yields index-keyed entries. -/
def jsEntries : JVal → List (String × JVal)
  | .obj l => l
  | .arr l => (l.enum).map (fun p => (toString p.1, p.2))
  | _ => []

/-- `Map.prototype.set`: overwrite in place if present, else append. -/
def storeSet (store : List (String × JVal)) (name : String) (cfg : JVal) :
    List (String × JVal) :=
  if store.any (fun kv => kv.1 = name) then
    store.map (fun kv => if kv.1 = name then (name, cfg) else kv)
  else store ++ [(name, cfg)]

/-- Result of `loadMcpStore`: updated store map, tool policy, and the
returned boolean. -/
structure McpLoadResult where
  store : List (String × JVal)
  policy : Option (List (String × JVal))
  ok : Bool
deriving Repr

/-- Embedding of `loadMcpStore({replace})`. `readResult` is the outcome of
`fs.readFile` followed by `JSON.parse`: `none` when either throws (unreadable
or unparseable file), `some j` for the parsed value. -/
def loadMcpStore (replace : Bool) (readResult : Option JVal)
    (store0 : List (String × JVal)) (policy0 : Option (List (String × JVal))) :
    McpLoadResult :=
  match readResult with
  | none => ⟨store0, policy0, false⟩
  | some j =>
    let servers := jsGet j "servers"
    let tools := jsGet j "tools"
    let store1 :=
      match servers with
      | some sv =>
        if isJsObject sv then
          let base := if replace then [] else store0
          (jsEntries sv).foldl
            (fun st kv =>
              if strTrim kv.1 ≠ "" ∧ isJsObject kv.2 then storeSet st kv.1 kv.2
              else st)
            base
        else store0
      | none => store0
    let policy1 :=
      match tools with
      | some (.obj l) => some l
      | some _ => if replace then none else policy0
      | none => if replace then none else policy0
    ⟨store1, policy1, true⟩

/-- Embedding of `listEnabledMcpServers()`: names of entries whose config is
an object with `enabled !== false`. -/
def listEnabledMcpServers (store : List (String × JVal)) : List String :=
  (store.filter
      (fun kv =>
        isJsObject kv.2 &&
          match jsGet kv.2 "enabled" with
          | some (.bool false) => false
          | _ => true)).map
    (fun kv => kv.1)

/-- Secret-name test from `redactSecrets`: compares the lowercased key. -/
def isSecretKey (k : String) : Bool :=
  let key := strLower k
  key = "key" || key = "apikey" || key = "api_key" || key = "token" ||
    strEndsWith key "_token"

mutual

/-- Embedding of `redactSecrets(value)`. -/
def redactSecrets : JVal → JVal
  | .arr l => .arr (redactList l)
  | .obj l => .obj (redactObj l)
  | v => v

/-- `value.map(redactSecrets)` on arrays. -/
def redactList : List JVal → List JVal
  | [] => []
  | v :: rest => redactSecrets v :: redactList rest

/-- The `for (const [k, v] of Object.entries(value))` loop: drop secret keys,
redact kept values. -/
def redactObj : List (String × JVal) → List (String × JVal)
  | [] => []
  | (k, v) :: rest =>
    if isSecretKey k then redactObj rest
    else (k, redactSecrets v) :: redactObj rest

end

mutual

/-- Whether any object field at any depth has a secret-matching name. -/
def hasSecretProp : JVal → Bool
  | .arr l => hasSecretPropList l
  | .obj l => hasSecretPropObj l
  | _ => false

def hasSecretPropList : List JVal → Bool
  | [] => false
  | v :: rest => hasSecretProp v || hasSecretPropList rest

def hasSecretPropObj : List (String × JVal) → Bool
  | [] => false
  | (k, v) :: rest => isSecretKey k || hasSecretProp v || hasSecretPropObj rest

end

/-- The success payload of `GET /api/models`:
`res.json({ ok: true, providers: redactSecrets(providers) })`. -/
def modelsResponse (providers : JVal) : JVal :=
  .obj [("ok", .bool true), ("providers", redactSecrets providers)]

/-- The authenticated user record built by `deriveAuthUser`. -/
structure AuthUser where
  userId : Int
  email : String
  role : String
  allowedServers : List String
deriving Repr, DecidableEq

/-- The JWT payload fields `deriveAuthUser` inspects. `sub`/`email` are
`none` when the field is absent (JS `undefined`). -/
structure JwtPayload where
  sub : Option String
  email : Option String
  role : Option String
  allowedServers : Option (List String)
deriving Repr

/-- JS `Number(x)` restricted to the shapes that reach it here, modelled
faithfully on decimal strings: `Number(undefined)` is `NaN` (`none`),
`Number("")`/whitespace is `0`, otherwise a decimal integer parse with `none`
for non-numeric strings (`NaN`). -/
def jsNumber : Option String → Option Int
  | none => none
  | some s =>
    let t := strTrim s
    if t = "" then some 0 else parseInt t

/-- Embedding of `deriveAuthUser(req)`. `verified` is the outcome of
`jwt.verify(token, secret, {issuer})`: `none` when verification throws (bad
signature, wrong issuer, expiry, malformed token), `some payload` otherwise. -/
def deriveAuthUser (authHeader : String) (verified : Option JwtPayload) :
    Option AuthUser :=
  if ¬(strStartsWith (strLower authHeader) "bearer ") then none
  else
    let token := strTrim (strDrop authHeader 7)
    if token = "" then none
    else
      match verified with
      | none => none
      | some p =>
        let userId := jsNumber p.sub
        let email := strLower (strTrim (p.email.getD ""))
        let role := strUpper (strTrim (p.role.getD ""))
        let allowed :=
          match p.allowedServers with
          | some l => (l.map strTrim).filter (fun n => n ≠ "")
          | none => []
        match userId with
        | none => none
        | some uid => if email = "" then none else some ⟨uid, email, role, allowed⟩

/-- Embedding of `deriveRole(req)`: token role wins, then the
`x-role`/`x-user-role` headers, defaulting to `STUDENT`. -/
def deriveRole (authUser : Option AuthUser) (xRole xUserRole : String) :
    String :=
  if authUser.elim false (fun u => u.role = "ADMIN") then "ADMIN"
  else if authUser.elim false (fun u => u.role = "FACULTY") then "FACULTY"
  else if authUser.elim false (fun u => u.role = "STUDENT") then "STUDENT"
  else
    let headerRole := strUpper (jsOr xRole xUserRole)
    if headerRole = "ADMIN" then "ADMIN"
    else if headerRole = "FACULTY" then "FACULTY"
    else "STUDENT"

/-- Embedding of `roleDefaultMcpServers(role)`. -/
def roleDefaultMcpServers (role : String) : List String :=
  if role = "ADMIN" then
    ["student_server_2022", "student_server_2024", "faculty_server"]
  else if role = "FACULTY" then ["faculty_server"]
  else ["student_server_2022", "student_server_2024"]

/-- Embedding of `parseAllowedServersHeader(req)` over the raw
`x-allowed-servers` header value. -/
def parseAllowedServersHeader (raw : String) : Option (List String) :=
  if strTrim raw = "" then none
  else
    let parsed := ((splitComma raw).map strTrim).filter (fun n => n ≠ "")
    if parsed ≠ [] then some (jsSetDedup parsed) else none

/-- Embedding of `allowedMcpServersForRole(role, req)`. The request is
represented by the derived `authUser` and the raw `x-allowed-servers`
header. -/
def allowedMcpServersForRole (role : String) (store : List (String × JVal))
    (authUser : Option AuthUser) (allowedServersHeader : String) :
    List String :=
  let enabledServers := listEnabledMcpServers store
  let roleDefaults :=
    (roleDefaultMcpServers role).filter (fun n => n ∈ enabledServers)
  let tokenAllowed : Option (List String) :=
    authUser.map (fun u => u.allowedServers)
  if (match tokenAllowed with | some l => !l.isEmpty | none => false) then
    roleDefaults.filter (fun n => n ∈ (tokenAllowed.getD []))
  else
    match parseAllowedServersHeader allowedServersHeader with
    | none => roleDefaults
    | some headerAllowed => roleDefaults.filter (fun n => n ∈ headerAllowed)

/-- Parse of `OPENCODE_PORT` (`Number(raw)` for a truthy, non-`"auto"` raw
value): outer `none` means the JS constant is `null` (auto-select), inner
`none` models `NaN` from a non-numeric string. -/
def opencodePortConst (raw : Option String) : Option (Option Nat) :=
  match raw with
  | none => none
  | some s => if s = "auto" ∨ s = "" then none else some (parseNat s)

/-- Whether `OPENCODE_PORT_RAW` counts as explicitly set:
`typeof raw === "string" && raw.length > 0`. -/
def portExplicitlySet (raw : Option String) : Bool :=
  match raw with
  | some s => strLength s > 0
  | none => false

/-- Outcome of the port-selection prologue of `startOpencodeServer`. -/
inductive PortOutcome where
  | fail
  | fixedPort (p : Nat)
  | autoPort (p : Nat)
  | fallbackPort (p : Nat)
deriving Repr, DecidableEq

/-- Embedding of `startOpencodeServer` lines 292-317 (port selection).
`free` is the value `getFreePort` resolves with (`none` for a null address),
`avail` is the `isPortAvailable` probe, `fallbackFree` the second
`getFreePort` call used on the fallback path. JS falsiness of `port` (null,
`0`, `NaN`) maps to `.fail`. -/
def selectPort (raw : Option String) (free : Option Nat) (avail : Nat → Bool)
    (fallbackFree : Option Nat) : PortOutcome :=
  let fixed := opencodePortConst raw
  let port : Option Nat :=
    match fixed with
    | none => free
    | some jn => jn
  match port with
  | none => .fail
  | some p =>
    if p = 0 then .fail
    else
      match fixed with
      | none => .autoPort p
      | some _ =>
        if avail p then .fixedPort p
        else if portExplicitlySet raw then .fail
        else
          match fallbackFree with
          | none => .fail
          | some q => if q = 0 then .fail else .fallbackPort q

/-- How one cached acquisition attempt of `getOpencode` eventually settles:
the async body resolves with a handle, resolves with `null` (the
`startOpencodeServer`-returned-null paths), or rejects (the `.catch`
branch). -/
inductive AcqOutcome where
  | ok
  | nullReturn
  | thrown
deriving Repr, DecidableEq

/-- The module-level supervisor state relevant to `getOpencode`:
`cache` is `opencodePromise` (identified by a serial number), `spawns`
counts executions of the async body (each spawns one child). -/
structure AcqState where
  cache : Option Nat
  counter : Nat
  spawns : Nat
deriving Repr, DecidableEq

/-- Initial supervisor state: `opencodePromise` unset, nothing spawned. -/
def acqInit : AcqState := ⟨none, 0, 0⟩

/-- One interleaving step: a `call` is an invocation of `getOpencode`
(returning the promise it hands back); `settle o` is the cached attempt
settling with outcome `o`. Only a rejection (`thrown`) runs the `.catch`
that clears `opencodePromise`. -/
inductive AcqEvent where
  | call
  | settle (o : AcqOutcome)
deriving Repr, DecidableEq

def acqStep (s : AcqState) (e : AcqEvent) : AcqState × Option Nat :=
  match e with
  | .call =>
    match s.cache with
    | some id => (s, some id)
    | none =>
      (⟨some s.counter, s.counter + 1, s.spawns + 1⟩, some s.counter)
  | .settle o =>
    match o with
    | .thrown => (⟨none, s.counter, s.spawns⟩, none)
    | _ => (s, none)

/-- Run a trace of interleaved calls/settlements, collecting the promise id
returned to each caller. -/
def acqRun (s : AcqState) : List AcqEvent → AcqState × List Nat
  | [] => (s, [])
  | e :: rest =>
    let step := acqStep s e
    let tail := acqRun step.1 rest
    (tail.1, (match step.2 with | some id => [id] | none => []) ++ tail.2)

/-- Outward NDJSON protocol events written by `POST /api/chat/stream`. -/
inductive OutEvent where
  | meta (threadId : String)
  | delta (text : String)
  | tool (callId : String) (toolName : String) (status : String) (title : String)
  | assistantError (msg : String)
  | error (msg : String)
  | done
deriving Repr, DecidableEq

/-- The fields of a `tool`-typed message part that the handler reads. A JS
falsy/absent string field is modelled as `""`. -/
structure ToolPart where
  sid : String
  callID : String
  pid : String
  toolName : String
  messageID : String
  status : String
  title : String
deriving Repr, DecidableEq

/-- `part.callID || part.id || `${part.tool}-${part.messageID || ""}``. -/
def synthCallId (p : ToolPart) : String :=
  jsOr p.callID (jsOr p.pid (p.toolName ++ "-" ++ p.messageID))

/-- Backing events delivered by `client.event.subscribe` that the stream loop
distinguishes: text-part updates (with their `properties.delta`), tool-part
updates, session errors (falsy/absent `sessionID` is `""`; falsy error payload
is `""`), idle markers, and anything else. -/
inductive BackEvent where
  | textPart (sid : String) (delta : String)
  | toolPart (p : ToolPart)
  | sessionErrorEvt (sid : String) (msg : String)
  | idle (sid : String)
  | other
deriving Repr, DecidableEq

/-- A part of a fetched assistant message (`client.session.messages`), as
inspected by `extractText` and the tool-completeness pass. -/
inductive MsgPart where
  | text (txt : String)
  | toolMP (callID : String) (pid : String) (toolName : String)
      (messageID : String) (status : String) (title : String)
  | otherPart
deriving Repr, DecidableEq

/-- Call id synthesis for a fetched tool part (same expression as live). -/
def msgPartCallId (cid pid toolName mid : String) : String :=
  jsOr cid (jsOr pid (toolName ++ "-" ++ mid))

/-- Embedding of `extractText(parts)`: concatenation of text parts. -/
def extractText : List MsgPart → String
  | [] => ""
  | .text t :: rest => t ++ extractText rest
  | .toolMP _ _ _ _ _ _ :: rest => extractText rest
  | .otherPart :: rest => extractText rest

/-- State produced by the `for await` loop over the subscription stream. -/
structure LoopResult where
  out : List OutEvent
  sawDelta : Bool
  sessionError : Option String
  seen : List String
  idled : Bool
deriving Repr, DecidableEq

/-- The `for await (const evt of subscription.stream)` loop of the handler,
carrying `sawDelta`, `sessionError` and `seenToolCalls` and stopping at a
`session.idle` for this session. A live tool part is always re-emitted (the
`seenToolCalls` set is only extended, not used to skip). -/
def runLoopAux (sessionId : String) : List BackEvent → Bool → Option String →
    List String → LoopResult
  | [], sawDelta, sessErr, seen => ⟨[], sawDelta, sessErr, seen, false⟩
  | e :: rest, sawDelta, sessErr, seen =>
    match e with
    | .textPart sid d =>
      if sid = sessionId ∧ d ≠ "" then
        let r := runLoopAux sessionId rest true sessErr seen
        ⟨.delta d :: r.out, r.sawDelta, r.sessionError, r.seen, r.idled⟩
      else runLoopAux sessionId rest sawDelta sessErr seen
    | .toolPart p =>
      if p.sid = sessionId then
        let callId := synthCallId p
        let seen1 := if callId ∈ seen then seen else seen ++ [callId]
        let status := jsOr p.status "unknown"
        let r := runLoopAux sessionId rest sawDelta sessErr seen1
        ⟨.tool callId p.toolName status p.title :: r.out, r.sawDelta,
          r.sessionError, r.seen, r.idled⟩
      else runLoopAux sessionId rest sawDelta sessErr seen
    | .sessionErrorEvt sid m =>
      if sid = "" ∨ sid = sessionId then
        runLoopAux sessionId rest sawDelta (some (jsOr m "session.error")) seen
      else runLoopAux sessionId rest sawDelta sessErr seen
    | .idle sid =>
      if sid = sessionId then ⟨[], sawDelta, sessErr, seen, true⟩
      else runLoopAux sessionId rest sawDelta sessErr seen
    | .other => runLoopAux sessionId rest sawDelta sessErr seen

def runLoop (sessionId : String) (events : List BackEvent) : LoopResult :=
  runLoopAux sessionId events false none []

/-- The `catch` around the stream loop: when the loop ended with an exception
(not by idling), an `error` event is written unless the abort signal had
fired; returns the written events and the local `aborted` variable. -/
def excOutput (idled : Bool) (streamExc : Option String)
    (abortedAtCatch : Bool) : List OutEvent × Bool :=
  if idled then ([], false)
  else
    match streamExc with
    | some m => if abortedAtCatch then ([], true) else ([.error m], false)
    | none => ([], false)

/-- `if (promptError && !sessionError && !abort.signal.aborted)`. -/
def promptOutput (promptError : Option String) (sessionError : Option String)
    (abortedAtPrompt : Bool) : List OutEvent :=
  match promptError with
  | some m =>
    if sessionError = none ∧ abortedAtPrompt = false then
      [.assistantError m]
    else []
  | none => []

/-- The no-delta fallback: fetch the session messages (last message's parts,
`none` when the fetch throws) and emit the extracted text as one `delta` when
non-empty; returns the written events and the updated `sawDelta`. -/
def fallbackOutput (sawDelta : Bool) (abortedAtFallback : Bool)
    (fetch : Option (List MsgPart)) : List OutEvent × Bool :=
  if sawDelta = false ∧ abortedAtFallback = false then
    match fetch with
    | some parts =>
      let t := extractText parts
      if t = "" then ([], sawDelta) else ([.delta t], true)
    | none => ([], sawDelta)
  else ([], sawDelta)

/-- The tool-completeness loop body: emit fetched tool parts whose call id
was not already seen, extending the seen set as it goes. -/
def emitMissingTools : List MsgPart → List String → List OutEvent
  | [], _ => []
  | .toolMP cid pid toolName mid status title :: rest, seen =>
    let callId := msgPartCallId cid pid toolName mid
    if callId ∈ seen then emitMissingTools rest seen
    else
      .tool callId toolName (jsOr status "unknown") title ::
        emitMissingTools rest (seen ++ [callId])
  | .text _ :: rest, seen => emitMissingTools rest seen
  | .otherPart :: rest, seen => emitMissingTools rest seen

/-- The completeness pass (`if (!abort.signal.aborted) { ... }`). -/
def passOutput (abortedAtToolPass : Bool) (fetch : Option (List MsgPart))
    (seen : List String) : List OutEvent :=
  if abortedAtToolPass then []
  else
    match fetch with
    | some parts => emitMissingTools parts seen
    | none => []

/-- The terminal branch before `done`: a captured session error becomes
`assistant_error`; otherwise, with no delta and the `aborted` variable set,
the fixed timeout message becomes an `error`. -/
def termOutput (sessionError : Option String) (sawDelta2 : Bool)
    (abortedVar : Bool) : List OutEvent :=
  match sessionError with
  | some e => [.assistantError e]
  | none =>
    if sawDelta2 = false ∧ abortedVar = true then
      [.error "Timed out after 120s"]
    else []

/-- `typeof message !== "string" || !message.trim()` (negated). -/
def validMessage : Option String → Bool
  | none => false
  | some m => !(strTrim m = "")

/-- The 400 response body text for a missing message. -/
def missingMessageError : String := "Missing \x27message\x27"

/-- One turn of `POST /api/chat/stream`, as the environment the JS runtime
presents to the handler. `outerFailure` is a rejection before the `meta`
write (`getOpencode`/destructuring/`session.create`/`config.providers`);
`streamExc` is an exception ending the subscription loop (it applies only
when the loop did not break at an idle event; `events` are exactly the
events delivered before the loop ended). The four `abortedAt*` fields are
the reads of `abort.signal.aborted` at the catch (line order: catch,
prompt-error check, delta fallback, tool pass); the signal is monotone, which
`TurnEnv.WF` records. `fallbackFetch`/`toolPassFetch` are the parts of the
last message returned by the two `session.messages` calls (`none` = the call
threw). -/
structure TurnEnv where
  message : Option String
  outerFailure : Option String
  sessionId : String
  events : List BackEvent
  streamExc : Option String
  promptError : Option String
  abortedAtCatch : Bool
  abortedAtPrompt : Bool
  abortedAtFallback : Bool
  abortedAtToolPass : Bool
  fallbackFetch : Option (List MsgPart)
  toolPassFetch : Option (List MsgPart)
deriving Repr, DecidableEq

/-- The abort signal never un-fires between successive reads. -/
def TurnEnv.WF (env : TurnEnv) : Prop :=
  (env.abortedAtCatch = true → env.abortedAtPrompt = true) ∧
    (env.abortedAtPrompt = true → env.abortedAtFallback = true) ∧
    (env.abortedAtFallback = true → env.abortedAtToolPass = true)

instance (env : TurnEnv) : Decidable env.WF := by
  unfold TurnEnv.WF
  infer_instance

/-- The full outward event sequence of one turn of the streaming chat
handler, assembled in source order: validation, `meta`, live loop, catch
error, prompt error, delta fallback, tool-completeness pass, terminal
session-error/timeout, `done`. The outer catch paths write `error` then
`done`. -/
def chatStreamTurn (env : TurnEnv) : List OutEvent :=
  if validMessage env.message = false then [.error missingMessageError]
  else
    match env.outerFailure with
    | some m => [.error m, .done]
    | none =>
      let L := runLoop env.sessionId env.events
      let exc := excOutput L.idled env.streamExc env.abortedAtCatch
      let pOut := promptOutput env.promptError L.sessionError env.abortedAtPrompt
      let fb := fallbackOutput L.sawDelta env.abortedAtFallback env.fallbackFetch
      let pass := passOutput env.abortedAtToolPass env.toolPassFetch L.seen
      let term := termOutput L.sessionError fb.2 exc.2
      .meta env.sessionId ::
        (L.out ++ exc.1 ++ pOut ++ fb.1 ++ pass ++ term ++ [.done])

/-- Event-kind discriminators used to state the protocol properties. -/
def isDone : OutEvent → Bool
  | .done => true
  | .meta _ => false
  | .delta _ => false
  | .tool _ _ _ _ => false
  | .assistantError _ => false
  | .error _ => false

def isDelta : OutEvent → Bool
  | .delta _ => true
  | .meta _ => false
  | .tool _ _ _ _ => false
  | .assistantError _ => false
  | .error _ => false
  | .done => false

def isErrorEvt : OutEvent → Bool
  | .error _ => true
  | .meta _ => false
  | .delta _ => false
  | .tool _ _ _ _ => false
  | .assistantError _ => false
  | .done => false

def isAssistantErrorEvt : OutEvent → Bool
  | .assistantError _ => true
  | .meta _ => false
  | .delta _ => false
  | .tool _ _ _ _ => false
  | .error _ => false
  | .done => false

def isToolEvt : OutEvent → Bool
  | .tool _ _ _ _ => true
  | .meta _ => false
  | .delta _ => false
  | .assistantError _ => false
  | .error _ => false
  | .done => false

/-- Outward tool events carrying a given call id. -/
def isToolWithId (id : String) : OutEvent → Bool
  | .tool callId _ _ _ => callId = id
  | .meta _ => false
  | .delta _ => false
  | .assistantError _ => false
  | .error _ => false
  | .done => false

/-- The number of live tool-part events for this session carrying a given
synthesized call id, up to the idle marker that ends the loop. -/
def eventToolCount (sessionId id : String) : List BackEvent → Nat
  | [] => 0
  | .toolPart p :: rest =>
    (if p.sid = sessionId ∧ synthCallId p = id then 1 else 0) +
      eventToolCount sessionId id rest
  | .idle sid :: rest =>
    if sid = sessionId then 0 else eventToolCount sessionId id rest
  | .textPart _ _ :: rest => eventToolCount sessionId id rest
  | .sessionErrorEvt _ _ :: rest => eventToolCount sessionId id rest
  | .other :: rest => eventToolCount sessionId id rest

/-! ## Theorems -/

/-- C8: loading/reloading a malformed (unreadable or unparseable) store file —
a read-or-parse outcome of `none` — leaves the in-memory store and tool policy
unchanged, keeps `listEnabledMcpServers()` output identical, and returns
`false`; the embedding is a total function, so no exception escapes. -/
theorem loadMcpStore_malformed_noop (replace : Bool)
    (store : List (String × JVal)) (policy : Option (List (String × JVal))) :
    loadMcpStore replace none store policy = ⟨store, policy, false⟩ ∧
      listEnabledMcpServers (loadMcpStore replace none store policy).store =
        listEnabledMcpServers store := by
  exact ⟨rfl, rfl⟩

/-- C9: a bearer token failing verification (`verified = none`, covering bad
signature, wrong issuer, expiry), a non-numeric subject, or a missing email
each make `deriveAuthUser` return `null`, so the request proceeds and
`deriveRole` falls back to the `x-role`/`x-user-role` headers; in particular a
forged token with an `x-role: faculty` header yields `FACULTY`. -/
theorem deriveAuthUser_failure_falls_back (authHeader xRole xUserRole : String)
    (p : JwtPayload) :
    deriveAuthUser authHeader none = none ∧
      (jsNumber p.sub = none → deriveAuthUser authHeader (some p) = none) ∧
      (strLower (strTrim (p.email.getD "")) = "" →
        deriveAuthUser authHeader (some p) = none) ∧
      deriveRole (deriveAuthUser authHeader none) xRole xUserRole =
        deriveRole none xRole xUserRole ∧
      deriveRole (deriveAuthUser authHeader none) "faculty" xUserRole =
        "FACULTY" := by
  have hnone : deriveAuthUser authHeader none = none := by
    unfold deriveAuthUser
    by_cases h1 : strStartsWith (strLower authHeader) "bearer " <;> simp [h1]
  have hrole : deriveRole none "faculty" xUserRole = "FACULTY" := by
    unfold deriveRole
    rfl
  refine ⟨hnone, ?_, ?_, by rw [hnone], by rw [hnone]; exact hrole⟩
  · intro hsub
    unfold deriveAuthUser
    by_cases h1 : strStartsWith (strLower authHeader) "bearer " <;>
      simp [h1, hsub]
  · intro hemail
    unfold deriveAuthUser
    by_cases h1 : strStartsWith (strLower authHeader) "bearer "
    · cases hs : jsNumber p.sub <;> simp [h1, hs, hemail]
    · simp [h1]

/-- Concrete JWT payload used to witness C9 (subject is non-numeric). -/
def c9Payload : JwtPayload := ⟨some "abc", some "user@kec.edu", some "STUDENT", none⟩

/-- C9 witness: a forged token (verification throws) with `x-role: faculty`
yields role `FACULTY`, and a bad-subject payload also yields no auth user. -/
theorem deriveAuthUser_failure_falls_back_witness :
    deriveAuthUser "Bearer forged" none = none ∧
      deriveAuthUser "Bearer forged" (some c9Payload) = none ∧
      deriveRole (deriveAuthUser "Bearer forged" none) "faculty" "" =
        "FACULTY" := by
  have h := deriveAuthUser_failure_falls_back "Bearer forged" "faculty" "" c9Payload
  exact ⟨h.1, h.2.1 rfl, h.2.2.2.2⟩

theorem redactList_eq_map : ∀ l : List JVal, redactList l = l.map redactSecrets
  | [] => rfl
  | v :: rest => by rw [redactList, List.map_cons, redactList_eq_map rest]

mutual

theorem hasSecretProp_redactSecrets :
    ∀ v : JVal, hasSecretProp (redactSecrets v) = false
  | .null => rfl
  | .bool _ => rfl
  | .num _ => rfl
  | .str _ => rfl
  | .arr l => by
    rw [redactSecrets, hasSecretProp]
    exact hasSecretPropList_redactList l
  | .obj l => by
    rw [redactSecrets, hasSecretProp]
    exact hasSecretPropObj_redactObj l

theorem hasSecretPropList_redactList :
    ∀ l : List JVal, hasSecretPropList (redactList l) = false
  | [] => rfl
  | v :: rest => by
    rw [redactList, hasSecretPropList, hasSecretProp_redactSecrets v,
      hasSecretPropList_redactList rest]
    rfl

theorem hasSecretPropObj_redactObj :
    ∀ l : List (String × JVal), hasSecretPropObj (redactObj l) = false
  | [] => rfl
  | (k, v) :: rest => by
    rw [redactObj]
    by_cases h : isSecretKey k
    · rw [if_pos h]
      exact hasSecretPropObj_redactObj rest
    · rw [if_neg h, hasSecretPropObj, hasSecretProp_redactSecrets v,
        hasSecretPropObj_redactObj rest]
      simp [h]

end

theorem lookupLast_redactObj_kept (l : List (String × JVal)) (k : String)
    (hk : isSecretKey k = false) :
    lookupLast (redactObj l) k = (lookupLast l k).map redactSecrets := by
  induction l with
  | nil => rfl
  | cons kv rest ih =>
    obtain ⟨k1, v1⟩ := kv
    by_cases h : isSecretKey k1
    · have hne : k1 ≠ k := by
        intro e
        rw [e, hk] at h
        exact Bool.false_ne_true h
      rw [redactObj, if_pos h, ih]
      show _ = (match lookupLast rest k with
        | some r => some r
        | none => if k1 = k then some v1 else none).map redactSecrets
      cases lookupLast rest k <;> simp [hne]
    · rw [redactObj, if_neg h]
      show (match lookupLast (redactObj rest) k with
        | some r => some r
        | none => if k1 = k then some (redactSecrets v1) else none) = _
      rw [ih]
      show _ = (match lookupLast rest k with
        | some r => some r
        | none => if k1 = k then some v1 else none).map redactSecrets
      cases lookupLast rest k
      · by_cases he : k1 = k <;> simp [he]
      · simp

theorem lookupLast_redactObj_secret (l : List (String × JVal)) (k : String)
    (hk : isSecretKey k = true) :
    lookupLast (redactObj l) k = none := by
  induction l with
  | nil => rfl
  | cons kv rest ih =>
    obtain ⟨k1, v1⟩ := kv
    by_cases h : isSecretKey k1
    · rw [redactObj, if_pos h]
      exact ih
    · have hne : k1 ≠ k := by
        intro e
        rw [e, hk] at h
        exact h rfl
      rw [redactObj, if_neg h]
      show (match lookupLast (redactObj rest) k with
        | some r => some r
        | none => if k1 = k then some (redactSecrets v1) else none) = none
      rw [ih]
      simp [hne]

/-- C10 counterexample: a property named `TOKEN` is removed by
`redactSecrets` although it is not named `key`, `apiKey`, `api_key` or
`token` and does not end in `_token` (the code matches the lowercased name,
the claim's literal list is case-sensitive), so "all other properties are
preserved" fails at this input. -/
theorem redactSecrets_case_counterexample :
    redactSecrets
        (JVal.obj [("TOKEN", JVal.str "s3cr3t"), ("name", JVal.str "n")]) =
      JVal.obj [("name", JVal.str "n")] ∧
      ¬("TOKEN" = "key" ∨ "TOKEN" = "apiKey" ∨ "TOKEN" = "api_key" ∨
        "TOKEN" = "token" ∨ strEndsWith "TOKEN" "_token" = true) := by
  exact ⟨rfl, by decide⟩

/-- C10 (amended): the models endpoint returns the provider catalog with
`redactSecrets` applied; after redaction no object property at any nesting
depth (arrays included) has a secret name, where a name is secret iff its
lowercasing is `key`, `apikey`, `api_key`, `token`, or ends in `_token`
(matching is case-insensitive); every non-secret property is preserved with
its value recursively redacted, secret properties are gone, and array
structure is preserved elementwise. -/
theorem redactSecrets_models_spec (providers : JVal)
    (l : List (String × JVal)) (elems : List JVal) (k : String) :
    jsGet (modelsResponse providers) "providers" =
        some (redactSecrets providers) ∧
      hasSecretProp (redactSecrets providers) = false ∧
      (isSecretKey k = false →
        jsGet (redactSecrets (JVal.obj l)) k =
          (jsGet (JVal.obj l) k).map redactSecrets) ∧
      (isSecretKey k = true → jsGet (redactSecrets (JVal.obj l)) k = none) ∧
      redactSecrets (JVal.arr elems) = JVal.arr (elems.map redactSecrets) := by
  refine ⟨rfl, hasSecretProp_redactSecrets providers, ?_, ?_, ?_⟩
  · intro hk
    rw [redactSecrets]
    exact lookupLast_redactObj_kept l k hk
  · intro hk
    rw [redactSecrets]
    exact lookupLast_redactObj_secret l k hk
  · rw [redactSecrets, redactList_eq_map]

/-- C10 witness: the spec theorem applied to a concrete nested catalog with a
kept `models` property and a removed `apiKey` property. -/
theorem redactSecrets_models_spec_witness :
    jsGet (modelsResponse (JVal.obj [("apiKey", JVal.str "k")])) "providers" =
        some (redactSecrets (JVal.obj [("apiKey", JVal.str "k")])) ∧
      jsGet
          (redactSecrets
            (JVal.obj [("apiKey", JVal.str "k"), ("models", JVal.arr [])]))
          "models" =
        some (JVal.arr []) ∧
      jsGet
          (redactSecrets
            (JVal.obj [("apiKey", JVal.str "k"), ("models", JVal.arr [])]))
          "apiKey" =
        none := by
  have h1 := redactSecrets_models_spec (JVal.obj [("apiKey", JVal.str "k")])
    [("apiKey", JVal.str "k"), ("models", JVal.arr [])] [] "models"
  have h2 := redactSecrets_models_spec (JVal.obj [("apiKey", JVal.str "k")])
    [("apiKey", JVal.str "k"), ("models", JVal.arr [])] [] "apiKey"
  exact ⟨h1.1, by rw [h1.2.2.1 rfl]; rfl, h2.2.2.2.1 rfl⟩

/-- Store with both student servers enabled, used for the C1 scenario. -/
def c1Store : List (String × JVal) :=
  [("student_server_2022", JVal.obj []), ("student_server_2024", JVal.obj [])]

/-- An authenticated STUDENT whose token carries an empty allow-list. -/
def c1User : AuthUser := ⟨7, "student@kec.edu", "STUDENT", []⟩

/-- An authenticated STUDENT with a narrowing non-empty allow-list. -/
def c1TokUser : AuthUser := ⟨8, "tok@kec.edu", "STUDENT", ["student_server_2024"]⟩

/-- C1 counterexample: the caller's allow-list is present (non-null: the
token pipeline always yields an array, here `[]`), yet the effective list is
the full role default, not a subset of the empty allow-list —
`tokenAllowed.length` being `0` makes the code skip the narrowing. -/
theorem allowedServers_emptyAllow_counterexample :
    (some c1User).map (fun u => u.allowedServers) = some [] ∧
      allowedMcpServersForRole "STUDENT" c1Store (some c1User) "" =
        ["student_server_2022", "student_server_2024"] ∧
      "student_server_2022" ∉ c1User.allowedServers := by
  exact ⟨rfl, rfl, by decide⟩

/-- C1 (amended): the effective allowed-server list is always a subset of
the role defaults intersected with the enabled providers; it is a subset of
the authenticated allow-list whenever that list is present AND non-empty (an
empty authenticated allow-list is ignored); when no non-empty authenticated
allow-list exists it is a subset of a parsed header allow-list when one is
present; unrecognized roles get the STUDENT defaults and `deriveRole` only
produces the three known roles (defaulting to STUDENT). -/
theorem allowedMcpServersForRole_spec (role : String)
    (store : List (String × JVal)) (authUser : Option AuthUser)
    (hdr : String) :
    (allowedMcpServersForRole role store authUser hdr ⊆
        roleDefaultMcpServers role) ∧
      (allowedMcpServersForRole role store authUser hdr ⊆
        listEnabledMcpServers store) ∧
      (∀ u, authUser = some u → u.allowedServers ≠ [] →
        allowedMcpServersForRole role store authUser hdr ⊆
          u.allowedServers) ∧
      (authUser.elim True (fun u => u.allowedServers = []) →
        ∀ hs, parseAllowedServersHeader hdr = some hs →
          allowedMcpServersForRole role store authUser hdr ⊆ hs) ∧
      (role ≠ "ADMIN" → role ≠ "FACULTY" →
        roleDefaultMcpServers role = roleDefaultMcpServers "STUDENT") ∧
      (∀ au xr xur, deriveRole au xr xur = "ADMIN" ∨
        deriveRole au xr xur = "FACULTY" ∨
        deriveRole au xr xur = "STUDENT") := by
  have hres :
      ∀ x, x ∈ allowedMcpServersForRole role store authUser hdr →
        x ∈ (roleDefaultMcpServers role).filter
          (fun n => decide (n ∈ listEnabledMcpServers store)) := by
    intro x hx
    simp only [allowedMcpServersForRole] at hx
    split at hx
    · exact List.mem_of_mem_filter hx
    · split at hx
      · exact hx
      · exact List.mem_of_mem_filter hx
  have hbase :
      ∀ x, x ∈ allowedMcpServersForRole role store authUser hdr →
        x ∈ roleDefaultMcpServers role ∧
          x ∈ listEnabledMcpServers store := by
    intro x hx
    have h := List.mem_filter.mp (hres x hx)
    exact ⟨h.1, of_decide_eq_true h.2⟩
  refine ⟨fun x hx => (hbase x hx).1, fun x hx => (hbase x hx).2, ?_, ?_, ?_, ?_⟩
  · intro u hu hne
    subst hu
    intro x hx
    simp only [allowedMcpServersForRole] at hx
    rw [if_pos (by simpa using hne)] at hx
    have h := List.mem_filter.mp hx
    simpa using of_decide_eq_true h.2
  · intro hnil hs hhs
    intro x hx
    simp only [allowedMcpServersForRole] at hx
    have hcond :
        (match Option.map (fun u => u.allowedServers) authUser with
          | some l => !l.isEmpty
          | none => false) = false := by
      cases authUser with
      | none => rfl
      | some u =>
        simp only [Option.elim] at hnil
        simp [hnil]
    rw [if_neg (by simp [hcond]), hhs] at hx
    have h := List.mem_filter.mp hx
    exact of_decide_eq_true h.2
  · intro h1 h2
    unfold roleDefaultMcpServers
    rw [if_neg h1, if_neg h2, if_neg, if_neg]
    · decide
    · decide
  · intro au xr xur
    unfold deriveRole
    split
    · exact Or.inl rfl
    · split
      · exact Or.inr (Or.inl rfl)
      · split
        · exact Or.inr (Or.inr rfl)
        · dsimp only
          split
          · exact Or.inl rfl
          · split
            · exact Or.inr (Or.inl rfl)
            · exact Or.inr (Or.inr rfl)

/-- C1 witness: the spec theorem at the concrete scenario — a non-empty
token allow-list narrows, and an unrecognized role gets STUDENT defaults. -/
theorem allowedMcpServersForRole_spec_witness :
    allowedMcpServersForRole "STUDENT" c1Store (some c1TokUser) "" ⊆
        c1TokUser.allowedServers ∧
      roleDefaultMcpServers "BOGUS" = roleDefaultMcpServers "STUDENT" := by
  have h1 := (allowedMcpServersForRole_spec "STUDENT" c1Store
    (some c1TokUser) "").2.2.1 c1TokUser rfl (by decide)
  have h2 := (allowedMcpServersForRole_spec "BOGUS" c1Store none
    "").2.2.2.2.1 (by decide) (by decide)
  exact ⟨h1, h2⟩

theorem portExplicitlySet_of_ne_empty (s : String) (h : s ≠ "") :
    portExplicitlySet (some s) = true := by
  have hd : s.data ≠ [] := by
    intro hd
    apply h
    cases s
    simp at hd
    simp [hd]
  simp only [portExplicitlySet, strLength]
  exact decide_eq_true (List.length_pos.mpr hd)

/-- C3 counterexample: requesting fixed port 8010 (the only way a fixed port
can be configured is a non-empty `OPENCODE_PORT` value) while the port is
busy makes startup fail — no warning-and-fallback occurs, because a non-null
fixed port implies `explicitlySet` is true. -/
theorem selectPort_busy_counterexample :
    opencodePortConst (some "8010") = some (some 8010) ∧
      selectPort (some "8010") none (fun _ => false) (some 9999) =
        PortOutcome.fail ∧
      portExplicitlySet (some "8010") = true := by
  exact ⟨rfl, rfl, rfl⟩

/-- C3 (amended): whenever a fixed port is configured (parsed non-null) and
found busy at spawn time, startup fails with no fallback; the soft-default
fallback branch is unreachable for every input (a configured fixed port
always comes from a non-empty raw value, which counts as explicitly pinned);
with no fixed port configured the OS-assigned free port is used without
probing. -/
theorem selectPort_pinned_spec (raw : Option String) (free : Option Nat)
    (avail : Nat → Bool) (fb : Option Nat) :
    (∀ p, opencodePortConst raw = some (some p) → p ≠ 0 → avail p = false →
      selectPort raw free avail fb = PortOutcome.fail) ∧
      (∀ q, selectPort raw free avail fb ≠ PortOutcome.fallbackPort q) ∧
      (∀ jn, opencodePortConst raw = some jn →
        portExplicitlySet raw = true) ∧
      (opencodePortConst raw = none → ∀ p, free = some p → p ≠ 0 →
        selectPort raw free avail fb = PortOutcome.autoPort p) := by
  have hset : ∀ jn, opencodePortConst raw = some jn →
      portExplicitlySet raw = true := by
    intro jn h
    cases raw with
    | none => exact absurd h (by simp [opencodePortConst])
    | some s =>
      simp only [opencodePortConst] at h
      by_cases hs : s = "auto" ∨ s = ""
      · simp [hs] at h
      · push_neg at hs
        exact portExplicitlySet_of_ne_empty s hs.2
  refine ⟨?_, ?_, hset, ?_⟩
  · intro p h hp hav
    unfold selectPort
    rw [h]
    simp only [hp, if_false, hav, hset _ h]
    simp
  · intro q
    unfold selectPort
    cases hfix : opencodePortConst raw with
    | none =>
      cases free with
      | none => simp
      | some p => by_cases hp : p = 0 <;> simp [hp]
    | some jn =>
      cases jn with
      | none => simp
      | some p =>
        by_cases hp : p = 0
        · simp [hp]
        · by_cases hav : avail p
          · simp [hp, hav]
          · simp [hp, hav, hset _ hfix]
  · intro hfix p hfree hp
    unfold selectPort
    rw [hfix, hfree]
    simp [hp]

/-- C3 witness: the amended theorem at the busy-8010 scenario and an
auto-port scenario. -/
theorem selectPort_pinned_spec_witness :
    selectPort (some "8010") none (fun _ => false) (some 9999) =
        PortOutcome.fail ∧
      selectPort (some "8010") none (fun _ => false) (some 9999) ≠
        PortOutcome.fallbackPort 9999 ∧
      selectPort none (some 4321) (fun _ => false) none =
        PortOutcome.autoPort 4321 := by
  have h := selectPort_pinned_spec (some "8010") none (fun _ => false)
    (some 9999)
  have h2 := selectPort_pinned_spec none (some 4321) (fun _ => false) none
  exact ⟨h.1 8010 rfl (by decide) rfl, h.2.1 9999,
    h2.2.2.2 rfl 4321 rfl (by decide)⟩

theorem acqRun_cached (id : Nat) :
    ∀ (s : AcqState), s.cache = some id → ∀ n,
      acqRun s (List.replicate n AcqEvent.call) =
        (s, List.replicate n id) := by
  intro s hs n
  induction n with
  | zero => rfl
  | succ m ih =>
    rw [List.replicate_succ]
    show (let step := acqStep s AcqEvent.call
      let tail := acqRun step.1 (List.replicate m AcqEvent.call)
      (tail.1, (match step.2 with | some id => [id] | none => []) ++ tail.2)) = _
    have hstep : acqStep s AcqEvent.call = (s, some id) := by
      unfold acqStep
      rw [hs]
    rw [hstep]
    dsimp only
    rw [ih]
    rfl

/-- C7 counterexample: after `call` then a null-return settlement (a failed
acquisition: `startOpencodeServer` returned no base URL), a second `call`
returns the same cached promise id 0 and the spawn count stays 1 — the
cache is not cleared, so the next acquire does not retry the spawn. -/
theorem getOpencode_nullReturn_counterexample :
    acqRun acqInit
        [AcqEvent.call, AcqEvent.settle AcqOutcome.nullReturn,
          AcqEvent.call] =
      (⟨some 0, 1, 1⟩, [0, 0]) := rfl

/-- C7 (amended): concurrent acquires share one in-flight promise — N
consecutive calls from the initial state spawn exactly once and all receive
promise id 0; a rejected (thrown) acquisition clears the cached promise and
a call with an empty cache spawns anew; but a null-return failure leaves the
settled promise cached (the state is unchanged), so subsequent acquires do
not retry. -/
theorem getOpencode_singleflight_spec (n : Nat) (s : AcqState) :
    ((acqRun acqInit (List.replicate (n + 1) AcqEvent.call)).1.spawns = 1 ∧
      (acqRun acqInit (List.replicate (n + 1) AcqEvent.call)).2 =
        List.replicate (n + 1) 0) ∧
      (acqStep s (AcqEvent.settle AcqOutcome.thrown)).1.cache = none ∧
      (s.cache = none →
        (acqStep s AcqEvent.call).1.spawns = s.spawns + 1) ∧
      (acqStep s (AcqEvent.settle AcqOutcome.nullReturn)).1 = s := by
  refine ⟨?_, rfl, ?_, rfl⟩
  · have hfirst : acqStep acqInit AcqEvent.call =
        (⟨some 0, 1, 1⟩, some 0) := rfl
    have hrest := acqRun_cached 0 ⟨some 0, 1, 1⟩ rfl n
    rw [List.replicate_succ]
    show (let step := acqStep acqInit AcqEvent.call
      let tail := acqRun step.1 (List.replicate n AcqEvent.call)
      ((tail.1,
        (match step.2 with | some id => [id] | none => []) ++ tail.2)).1.spawns = 1 ∧
      (let step := acqStep acqInit AcqEvent.call
       let tail := acqRun step.1 (List.replicate n AcqEvent.call)
       (tail.1,
        (match step.2 with | some id => [id] | none => []) ++ tail.2)).2 =
        List.replicate (n + 1) 0)
    rw [hfirst]
    dsimp only
    rw [hrest]
    refine ⟨rfl, ?_⟩
    rw [List.replicate_succ]
    rfl
  · intro h
    unfold acqStep
    rw [h]

/-- C7 witness: the amended theorem at `n = 2` and a concrete state with an
empty cache. -/
theorem getOpencode_singleflight_spec_witness :
    ((acqRun acqInit (List.replicate 3 AcqEvent.call)).1.spawns = 1 ∧
      (acqRun acqInit (List.replicate 3 AcqEvent.call)).2 =
        List.replicate 3 0) ∧
      (acqStep ⟨none, 5, 4⟩ AcqEvent.call).1.spawns = 5 := by
  have h := getOpencode_singleflight_spec 2 ⟨none, 5, 4⟩
  exact ⟨h.1, h.2.2.1 rfl⟩

theorem runLoopAux_out_kinds (sessionId : String) :
    ∀ (events : List BackEvent) (sd : Bool) (se : Option String)
      (seen : List String) (e : OutEvent),
      e ∈ (runLoopAux sessionId events sd se seen).out →
      isDelta e = true ∨ isToolEvt e = true := by
  intro events
  induction events with
  | nil =>
    intro sd se seen e he
    simp [runLoopAux] at he
  | cons ev rest ih =>
    intro sd se seen e he
    cases ev with
    | textPart sid d =>
      by_cases h : sid = sessionId ∧ d ≠ ""
      · rw [runLoopAux, if_pos h] at he
        rcases List.mem_cons.mp he with rfl | hmem
        · exact Or.inl rfl
        · exact ih _ _ _ e hmem
      · rw [runLoopAux, if_neg h] at he
        exact ih _ _ _ e he
    | toolPart p =>
      by_cases h : p.sid = sessionId
      · rw [runLoopAux, if_pos h] at he
        rcases List.mem_cons.mp he with rfl | hmem
        · exact Or.inr rfl
        · exact ih _ _ _ e hmem
      · rw [runLoopAux, if_neg h] at he
        exact ih _ _ _ e he
    | sessionErrorEvt sid m =>
      by_cases h : sid = "" ∨ sid = sessionId
      · rw [runLoopAux, if_pos h] at he
        exact ih _ _ _ e he
      · rw [runLoopAux, if_neg h] at he
        exact ih _ _ _ e he
    | idle sid =>
      by_cases h : sid = sessionId
      · rw [runLoopAux, if_pos h] at he
        simp at he
      · rw [runLoopAux, if_neg h] at he
        exact ih _ _ _ e he
    | other =>
      rw [runLoopAux] at he
      exact ih _ _ _ e he

theorem runLoopAux_sawDelta_mono (sessionId : String) :
    ∀ (events : List BackEvent) (se : Option String) (seen : List String),
      (runLoopAux sessionId events true se seen).sawDelta = true := by
  intro events
  induction events with
  | nil => intro se seen; rfl
  | cons ev rest ih =>
    intro se seen
    cases ev with
    | textPart sid d =>
      by_cases h : sid = sessionId ∧ d ≠ ""
      · rw [runLoopAux, if_pos h]
        exact ih _ _
      · rw [runLoopAux, if_neg h]
        exact ih _ _
    | toolPart p =>
      by_cases h : p.sid = sessionId
      · rw [runLoopAux, if_pos h]
        exact ih _ _
      · rw [runLoopAux, if_neg h]
        exact ih _ _
    | sessionErrorEvt sid m =>
      by_cases h : sid = "" ∨ sid = sessionId
      · rw [runLoopAux, if_pos h]
        exact ih _ _
      · rw [runLoopAux, if_neg h]
        exact ih _ _
    | idle sid =>
      by_cases h : sid = sessionId
      · rw [runLoopAux, if_pos h]
      · rw [runLoopAux, if_neg h]
        exact ih _ _
    | other =>
      rw [runLoopAux]
      exact ih _ _

theorem runLoopAux_no_delta_of_not_sawDelta (sessionId : String) :
    ∀ (events : List BackEvent) (sd : Bool) (se : Option String)
      (seen : List String),
      (runLoopAux sessionId events sd se seen).sawDelta = false →
      ((runLoopAux sessionId events sd se seen).out).countP isDelta = 0 := by
  intro events
  induction events with
  | nil => intro sd se seen _; rfl
  | cons ev rest ih =>
    intro sd se seen hsd
    cases ev with
    | textPart sid d =>
      by_cases h : sid = sessionId ∧ d ≠ ""
      · rw [runLoopAux, if_pos h] at hsd ⊢
        rw [runLoopAux_sawDelta_mono sessionId rest se seen] at hsd
        exact absurd hsd (by simp)
      · rw [runLoopAux, if_neg h] at hsd ⊢
        exact ih _ _ _ hsd
    | toolPart p =>
      by_cases h : p.sid = sessionId
      · rw [runLoopAux, if_pos h] at hsd ⊢
        rw [List.countP_cons]
        rw [ih _ _ _ hsd]
        rfl
      · rw [runLoopAux, if_neg h] at hsd ⊢
        exact ih _ _ _ hsd
    | sessionErrorEvt sid m =>
      by_cases h : sid = "" ∨ sid = sessionId
      · rw [runLoopAux, if_pos h] at hsd ⊢
        exact ih _ _ _ hsd
      · rw [runLoopAux, if_neg h] at hsd ⊢
        exact ih _ _ _ hsd
    | idle sid =>
      by_cases h : sid = sessionId
      · rw [runLoopAux, if_pos h]
        rfl
      · rw [runLoopAux, if_neg h] at hsd ⊢
        exact ih _ _ _ hsd
    | other =>
      rw [runLoopAux] at hsd ⊢
      exact ih _ _ _ hsd

theorem runLoopAux_tool_count (sessionId id : String) :
    ∀ (events : List BackEvent) (sd : Bool) (se : Option String)
      (seen : List String),
      ((runLoopAux sessionId events sd se seen).out).countP
          (isToolWithId id) =
        eventToolCount sessionId id events := by
  intro events
  induction events with
  | nil => intro sd se seen; rfl
  | cons ev rest ih =>
    intro sd se seen
    cases ev with
    | textPart sid d =>
      by_cases h : sid = sessionId ∧ d ≠ ""
      · rw [runLoopAux, if_pos h, eventToolCount]
        show ((OutEvent.delta d ::
          (runLoopAux sessionId rest true se seen).out)).countP
            (isToolWithId id) = _
        rw [List.countP_cons, ih]
        rfl
      · rw [runLoopAux, if_neg h, eventToolCount]
        exact ih _ _ _
    | toolPart p =>
      by_cases h : p.sid = sessionId
      · rw [runLoopAux, if_pos h, eventToolCount]
        show ((OutEvent.tool (synthCallId p) p.toolName
            (jsOr p.status "unknown") p.title ::
          (runLoopAux sessionId rest sd se
            (if synthCallId p ∈ seen then seen
              else seen ++ [synthCallId p])).out)).countP
            (isToolWithId id) = _
        rw [List.countP_cons, ih]
        by_cases hid : synthCallId p = id
        · simp [isToolWithId, hid, h, Nat.add_comm]
        · simp [isToolWithId, hid, h]
      · rw [runLoopAux, if_neg h, eventToolCount,
          if_neg (fun hc => h hc.1)]
        simp [ih]
    | sessionErrorEvt sid m =>
      by_cases h : sid = "" ∨ sid = sessionId
      · rw [runLoopAux, if_pos h, eventToolCount]
        exact ih _ _ _
      · rw [runLoopAux, if_neg h, eventToolCount]
        exact ih _ _ _
    | idle sid =>
      by_cases h : sid = sessionId
      · rw [runLoopAux, if_pos h, eventToolCount, if_pos h]
        rfl
      · rw [runLoopAux, if_neg h, eventToolCount, if_neg h]
        exact ih _ _ _
    | other =>
      rw [runLoopAux, eventToolCount]
      exact ih _ _ _

theorem runLoopAux_seen_mem (sessionId id : String) :
    ∀ (events : List BackEvent) (sd : Bool) (se : Option String)
      (seen : List String),
      (id ∈ (runLoopAux sessionId events sd se seen).seen ↔
        id ∈ seen ∨ 0 < eventToolCount sessionId id events) := by
  intro events
  induction events with
  | nil =>
    intro sd se seen
    simp [runLoopAux, eventToolCount]
  | cons ev rest ih =>
    intro sd se seen
    cases ev with
    | textPart sid d =>
      by_cases h : sid = sessionId ∧ d ≠ ""
      · rw [runLoopAux, if_pos h, eventToolCount]
        exact ih _ _ _
      · rw [runLoopAux, if_neg h, eventToolCount]
        exact ih _ _ _
    | toolPart p =>
      by_cases h : p.sid = sessionId
      · rw [runLoopAux, if_pos h, eventToolCount]
        have hseen1 : id ∈ (if synthCallId p ∈ seen then seen
            else seen ++ [synthCallId p]) ↔
            (id ∈ seen ∨ id = synthCallId p) := by
          by_cases hin : synthCallId p ∈ seen
          · rw [if_pos hin]
            constructor
            · exact Or.inl
            · rintro (hh | rfl)
              · exact hh
              · exact hin
          · rw [if_neg hin]
            simp [List.mem_append]
        show id ∈ (runLoopAux sessionId rest sd se
            (if synthCallId p ∈ seen then seen
              else seen ++ [synthCallId p])).seen ↔ _
        rw [ih, hseen1]
        by_cases hid : synthCallId p = id
        · rw [if_pos ⟨h, hid⟩]
          have hpos : 0 < 1 + eventToolCount sessionId id rest :=
            Nat.lt_of_lt_of_le Nat.zero_lt_one (Nat.le_add_right 1 _)
          simp [hid, hpos]
        · rw [if_neg (fun hc => hid hc.2), Nat.zero_add]
          have hid2 : ¬(id = synthCallId p) := fun e => hid e.symm
          simp [hid2, or_assoc]
      · rw [runLoopAux, if_neg h, eventToolCount,
          if_neg (fun hc => h hc.1), Nat.zero_add]
        exact ih _ _ _
    | sessionErrorEvt sid m =>
      by_cases h : sid = "" ∨ sid = sessionId
      · rw [runLoopAux, if_pos h, eventToolCount]
        exact ih _ _ _
      · rw [runLoopAux, if_neg h, eventToolCount]
        exact ih _ _ _
    | idle sid =>
      by_cases h : sid = sessionId
      · rw [runLoopAux, if_pos h, eventToolCount, if_pos h]
        simp
      · rw [runLoopAux, if_neg h, eventToolCount, if_neg h]
        exact ih _ _ _
    | other =>
      rw [runLoopAux, eventToolCount]
      exact ih _ _ _

theorem emitMissingTools_kinds :
    ∀ (parts : List MsgPart) (seen : List String) (e : OutEvent),
      e ∈ emitMissingTools parts seen → isToolEvt e = true := by
  intro parts
  induction parts with
  | nil => intro seen e he; simp [emitMissingTools] at he
  | cons part rest ih =>
    intro seen e he
    cases part with
    | text t =>
      rw [emitMissingTools] at he
      exact ih _ e he
    | otherPart =>
      rw [emitMissingTools] at he
      exact ih _ e he
    | toolMP cid pid toolName mid status title =>
      rw [emitMissingTools] at he
      by_cases hin : msgPartCallId cid pid toolName mid ∈ seen
      · rw [if_pos hin] at he
        exact ih _ e he
      · rw [if_neg hin] at he
        rcases List.mem_cons.mp he with rfl | hmem
        · rfl
        · exact ih _ e hmem

theorem emitMissingTools_count (id : String) :
    ∀ (parts : List MsgPart) (seen : List String),
      (id ∈ seen →
        (emitMissingTools parts seen).countP (isToolWithId id) = 0) ∧
        (emitMissingTools parts seen).countP (isToolWithId id) ≤ 1 := by
  intro parts
  induction parts with
  | nil =>
    intro seen
    exact ⟨fun _ => rfl, by simp [emitMissingTools]⟩
  | cons part rest ih =>
    intro seen
    cases part with
    | text t =>
      rw [emitMissingTools]
      exact ih seen
    | otherPart =>
      rw [emitMissingTools]
      exact ih seen
    | toolMP cid pid toolName mid status title =>
      rw [emitMissingTools]
      by_cases hin : msgPartCallId cid pid toolName mid ∈ seen
      · rw [if_pos hin]
        exact ih seen
      · rw [if_neg hin]
        constructor
        · intro hidin
          have hne : msgPartCallId cid pid toolName mid ≠ id :=
            fun e => hin (e ▸ hidin)
          rw [List.countP_cons]
          have h0 := (ih (seen ++ [msgPartCallId cid pid toolName mid])).1
            (List.mem_append.mpr (Or.inl hidin))
          rw [h0]
          simp [isToolWithId, hne]
        · rw [List.countP_cons]
          by_cases hid : msgPartCallId cid pid toolName mid = id
          · have h0 := (ih (seen ++ [msgPartCallId cid pid toolName mid])).1
              (List.mem_append.mpr (Or.inr (by simp [hid])))
            rw [h0]
            simp [isToolWithId, hid]
          · have h1 := (ih (seen ++ [msgPartCallId cid pid toolName mid])).2
            simp only [isToolWithId, hid]
            simpa using h1

theorem excOutput_mem (idled : Bool) (exc : Option String) (ab : Bool) :
    ∀ e ∈ (excOutput idled exc ab).1, ∃ m, e = OutEvent.error m := by
  intro e he
  by_cases hi : idled
  · simp [excOutput, hi] at he
  · cases exc with
    | none => simp [excOutput, hi] at he
    | some m =>
      by_cases hab : ab
      · simp [excOutput, hi, hab] at he
      · simp [excOutput, hi, hab] at he
        exact ⟨m, he⟩

theorem excOutput_length (idled : Bool) (exc : Option String) (ab : Bool) :
    (excOutput idled exc ab).1.length ≤ 1 := by
  by_cases hi : idled
  · simp [excOutput, hi]
  · cases exc with
    | none => simp [excOutput, hi]
    | some m => by_cases hab : ab <;> simp [excOutput, hi, hab]

theorem excOutput_empty_of_aborted (idled : Bool) (exc : Option String)
    (ab : Bool) (h : (excOutput idled exc ab).2 = true) :
    (excOutput idled exc ab).1 = [] := by
  by_cases hi : idled
  · simp [excOutput, hi]
  · cases exc with
    | none => simp [excOutput, hi]
    | some m =>
      by_cases hab : ab
      · simp [excOutput, hi, hab]
      · simp [excOutput, hi, hab] at h

theorem promptOutput_mem (pe se : Option String) (ab : Bool) :
    ∀ e ∈ promptOutput pe se ab, ∃ m, e = OutEvent.assistantError m := by
  intro e he
  cases pe with
  | none => simp [promptOutput] at he
  | some m =>
    by_cases hc : se = none ∧ ab = false
    · simp [promptOutput, hc] at he
      exact ⟨m, he⟩
    · simp [promptOutput, hc] at he

theorem promptOutput_length (pe se : Option String) (ab : Bool) :
    (promptOutput pe se ab).length ≤ 1 := by
  cases pe with
  | none => simp [promptOutput]
  | some m =>
    by_cases hc : se = none ∧ ab = false <;> simp [promptOutput, hc]

theorem promptOutput_empty_of_sessionError (pe : Option String) (m : String)
    (ab : Bool) : promptOutput pe (some m) ab = [] := by
  cases pe with
  | none => rfl
  | some m2 => simp [promptOutput]

theorem fallbackOutput_mem (sd ab : Bool) (fetch : Option (List MsgPart)) :
    ∀ e ∈ (fallbackOutput sd ab fetch).1, ∃ t, e = OutEvent.delta t := by
  intro e he
  by_cases hc : sd = false ∧ ab = false
  · cases fetch with
    | none => simp [fallbackOutput, hc] at he
    | some parts =>
      by_cases ht : extractText parts = ""
      · simp [fallbackOutput, hc, ht] at he
      · simp [fallbackOutput, hc, ht] at he
        exact ⟨extractText parts, he⟩
  · simp [fallbackOutput, hc] at he

theorem fallbackOutput_length (sd ab : Bool) (fetch : Option (List MsgPart)) :
    (fallbackOutput sd ab fetch).1.length ≤ 1 := by
  by_cases hc : sd = false ∧ ab = false
  · cases fetch with
    | none => simp [fallbackOutput, hc]
    | some parts =>
      by_cases ht : extractText parts = "" <;> simp [fallbackOutput, hc, ht]
  · simp [fallbackOutput, hc]

theorem termOutput_mem (se : Option String) (sd2 av : Bool) :
    ∀ e ∈ termOutput se sd2 av,
      (∃ m, e = OutEvent.assistantError m) ∨
        e = OutEvent.error "Timed out after 120s" := by
  intro e he
  cases se with
  | some m =>
    simp [termOutput] at he
    exact Or.inl ⟨m, he⟩
  | none =>
    by_cases hc : sd2 = false ∧ av = true
    · simp [termOutput, hc] at he
      exact Or.inr he
    · simp [termOutput, hc] at he

theorem termOutput_length (se : Option String) (sd2 av : Bool) :
    (termOutput se sd2 av).length ≤ 1 := by
  cases se with
  | some m => simp [termOutput]
  | none => by_cases hc : sd2 = false ∧ av = true <;> simp [termOutput, hc]

theorem termOutput_no_error_of_not_aborted (se : Option String) (sd2 : Bool) :
    (termOutput se sd2 false).countP isErrorEvt = 0 := by
  cases se with
  | some m => simp [termOutput, isErrorEvt]
  | none => simp [termOutput]

/-- Unfolding equation of `chatStreamTurn` on the main (validated,
no-outer-failure) path. -/
theorem chatStreamTurn_valid (env : TurnEnv)
    (h : validMessage env.message = true) (ho : env.outerFailure = none) :
    chatStreamTurn env =
      OutEvent.meta env.sessionId ::
        ((runLoop env.sessionId env.events).out ++
          (excOutput (runLoop env.sessionId env.events).idled env.streamExc
              env.abortedAtCatch).1 ++
          promptOutput env.promptError
            (runLoop env.sessionId env.events).sessionError
            env.abortedAtPrompt ++
          (fallbackOutput (runLoop env.sessionId env.events).sawDelta
              env.abortedAtFallback env.fallbackFetch).1 ++
          passOutput env.abortedAtToolPass env.toolPassFetch
            (runLoop env.sessionId env.events).seen ++
          termOutput (runLoop env.sessionId env.events).sessionError
            (fallbackOutput (runLoop env.sessionId env.events).sawDelta
                env.abortedAtFallback env.fallbackFetch).2
            (excOutput (runLoop env.sessionId env.events).idled env.streamExc
                env.abortedAtCatch).2 ++
          [OutEvent.done]) := by
  unfold chatStreamTurn
  rw [h, ho]
  simp

/-- Event-kind facts: what each discriminator says about the others. -/
theorem outEvent_kind_facts (e : OutEvent)
    (h : isDelta e = true ∨ isToolEvt e = true) :
    isDone e = false ∧ isErrorEvt e = false ∧
      isAssistantErrorEvt e = false := by
  cases e <;> simp [isDelta, isToolEvt, isDone, isErrorEvt,
    isAssistantErrorEvt] at h ⊢


/-- C2 (amended): every turn that passes the `message` validation emits
exactly one `done`, as its final event, with at most one `error` and at most
one `assistant_error` before it (both kinds may appear in the same turn);
the missing/blank-`message` branch instead emits a single `error` — and no
`done` — before ending the response. -/
theorem chatStream_protocol_spec (env : TurnEnv) :
    (validMessage env.message = true →
      (chatStreamTurn env).countP isDone = 1 ∧
        (chatStreamTurn env).getLast? = some OutEvent.done ∧
        (chatStreamTurn env).countP isErrorEvt ≤ 1 ∧
        (chatStreamTurn env).countP isAssistantErrorEvt ≤ 1) ∧
      (validMessage env.message = false →
        chatStreamTurn env = [OutEvent.error missingMessageError]) := by
  constructor
  · intro hv
    cases ho : env.outerFailure with
    | some m =>
      have he : chatStreamTurn env = [OutEvent.error m, OutEvent.done] := by
        unfold chatStreamTurn
        rw [hv, ho]
        simp
      rw [he]
      exact ⟨rfl, rfl, by simp [List.countP_cons, isErrorEvt, isDone],
        by simp [List.countP_cons, isAssistantErrorEvt, isDone, isErrorEvt]⟩
    | none =>
      have hzero : ∀ (l : List OutEvent) (p : OutEvent → Bool),
          (∀ e ∈ l, p e = false) → l.countP p = 0 := by
        intro l p h
        exact List.countP_eq_zero.mpr (fun a ha => by simp [h a ha])
      have hA : ∀ e ∈ (runLoop env.sessionId env.events).out,
          isDone e = false ∧ isErrorEvt e = false ∧
            isAssistantErrorEvt e = false := by
        intro e he
        exact outEvent_kind_facts e
          (runLoopAux_out_kinds env.sessionId env.events false none [] e he)
      have hB := excOutput_mem (runLoop env.sessionId env.events).idled
        env.streamExc env.abortedAtCatch
      have hC := promptOutput_mem env.promptError
        (runLoop env.sessionId env.events).sessionError env.abortedAtPrompt
      have hD := fallbackOutput_mem (runLoop env.sessionId env.events).sawDelta
        env.abortedAtFallback env.fallbackFetch
      have hE : ∀ e ∈ passOutput env.abortedAtToolPass env.toolPassFetch
          (runLoop env.sessionId env.events).seen,
          isToolEvt e = true := by
        intro e he
        unfold passOutput at he
        by_cases hab : env.abortedAtToolPass
        · simp [hab] at he
        · cases hf : env.toolPassFetch with
          | none => simp [hab, hf] at he
          | some parts =>
            simp only [hab, hf, Bool.false_eq_true, if_false] at he
            exact emitMissingTools_kinds parts _ e he
      have hF := termOutput_mem (runLoop env.sessionId env.events).sessionError
        (fallbackOutput (runLoop env.sessionId env.events).sawDelta
            env.abortedAtFallback env.fallbackFetch).2
        (excOutput (runLoop env.sessionId env.events).idled env.streamExc
            env.abortedAtCatch).2
      have hAdone : ((runLoop env.sessionId env.events).out).countP isDone
          = 0 := hzero _ _ (fun e he => (hA e he).1)
      have hAerr : ((runLoop env.sessionId env.events).out).countP isErrorEvt
          = 0 := hzero _ _ (fun e he => (hA e he).2.1)
      have hAass : ((runLoop env.sessionId env.events).out).countP
          isAssistantErrorEvt = 0 := hzero _ _ (fun e he => (hA e he).2.2)
      have hBdone : ((excOutput (runLoop env.sessionId env.events).idled
          env.streamExc env.abortedAtCatch).1).countP isDone = 0 :=
        hzero _ _ (fun e he => by obtain ⟨m2, rfl⟩ := hB e he; rfl)
      have hBass : ((excOutput (runLoop env.sessionId env.events).idled
          env.streamExc env.abortedAtCatch).1).countP
          isAssistantErrorEvt = 0 :=
        hzero _ _ (fun e he => by obtain ⟨m2, rfl⟩ := hB e he; rfl)
      have hCdone : (promptOutput env.promptError
          (runLoop env.sessionId env.events).sessionError
          env.abortedAtPrompt).countP isDone = 0 :=
        hzero _ _ (fun e he => by obtain ⟨m2, rfl⟩ := hC e he; rfl)
      have hCerr : (promptOutput env.promptError
          (runLoop env.sessionId env.events).sessionError
          env.abortedAtPrompt).countP isErrorEvt = 0 :=
        hzero _ _ (fun e he => by obtain ⟨m2, rfl⟩ := hC e he; rfl)
      have hDdone : ((fallbackOutput
          (runLoop env.sessionId env.events).sawDelta env.abortedAtFallback
          env.fallbackFetch).1).countP isDone = 0 :=
        hzero _ _ (fun e he => by obtain ⟨t, rfl⟩ := hD e he; rfl)
      have hDerr : ((fallbackOutput
          (runLoop env.sessionId env.events).sawDelta env.abortedAtFallback
          env.fallbackFetch).1).countP isErrorEvt = 0 :=
        hzero _ _ (fun e he => by obtain ⟨t, rfl⟩ := hD e he; rfl)
      have hDass : ((fallbackOutput
          (runLoop env.sessionId env.events).sawDelta env.abortedAtFallback
          env.fallbackFetch).1).countP isAssistantErrorEvt = 0 :=
        hzero _ _ (fun e he => by obtain ⟨t, rfl⟩ := hD e he; rfl)
      have hEdone : (passOutput env.abortedAtToolPass env.toolPassFetch
          (runLoop env.sessionId env.events).seen).countP isDone = 0 :=
        hzero _ _ (fun e he => (outEvent_kind_facts e (Or.inr (hE e he))).1)
      have hEerr : (passOutput env.abortedAtToolPass env.toolPassFetch
          (runLoop env.sessionId env.events).seen).countP isErrorEvt = 0 :=
        hzero _ _ (fun e he => (outEvent_kind_facts e (Or.inr (hE e he))).2.1)
      have hEass : (passOutput env.abortedAtToolPass env.toolPassFetch
          (runLoop env.sessionId env.events).seen).countP
          isAssistantErrorEvt = 0 :=
        hzero _ _ (fun e he => (outEvent_kind_facts e (Or.inr (hE e he))).2.2)
      have hFdone : (termOutput (runLoop env.sessionId env.events).sessionError
          (fallbackOutput (runLoop env.sessionId env.events).sawDelta
              env.abortedAtFallback env.fallbackFetch).2
          (excOutput (runLoop env.sessionId env.events).idled env.streamExc
              env.abortedAtCatch).2).countP isDone = 0 :=
        hzero _ _ (fun e he => by
          rcases hF e he with ⟨m2, rfl⟩ | rfl <;> rfl)
      rw [chatStreamTurn_valid env hv ho]
      refine ⟨?_, ?_, ?_, ?_⟩
      · simp only [List.countP_cons, List.countP_append, List.countP_nil,
          hAdone, hBdone, hCdone, hDdone, hEdone, hFdone, isDone]
        norm_num
      · rw [← List.cons_append]
        exact List.getLast?_concat _
      · have hBF : ((excOutput (runLoop env.sessionId env.events).idled
              env.streamExc env.abortedAtCatch).1).countP isErrorEvt +
            (termOutput (runLoop env.sessionId env.events).sessionError
                (fallbackOutput (runLoop env.sessionId env.events).sawDelta
                    env.abortedAtFallback env.fallbackFetch).2
                (excOutput (runLoop env.sessionId env.events).idled
                    env.streamExc env.abortedAtCatch).2).countP
              isErrorEvt ≤ 1 := by
          cases hb : (excOutput (runLoop env.sessionId env.events).idled
              env.streamExc env.abortedAtCatch).2 with
          | true =>
            rw [excOutput_empty_of_aborted _ _ _ hb]
            have hle := Nat.le_trans
              (List.countP_le_length isErrorEvt)
              (termOutput_length
                (runLoop env.sessionId env.events).sessionError
                (fallbackOutput (runLoop env.sessionId env.events).sawDelta
                    env.abortedAtFallback env.fallbackFetch).2 true)
            simpa using hle
          | false =>
            rw [termOutput_no_error_of_not_aborted]
            have hle := Nat.le_trans
              (List.countP_le_length isErrorEvt)
              (excOutput_length (runLoop env.sessionId env.events).idled
                env.streamExc env.abortedAtCatch)
            simpa using hle
        simp only [List.countP_cons, List.countP_append, List.countP_nil,
          hAerr, hCerr, hDerr, hEerr, isErrorEvt]
        norm_num
        omega
      · have hCF : (promptOutput env.promptError
              (runLoop env.sessionId env.events).sessionError
              env.abortedAtPrompt).countP isAssistantErrorEvt +
            (termOutput (runLoop env.sessionId env.events).sessionError
                (fallbackOutput (runLoop env.sessionId env.events).sawDelta
                    env.abortedAtFallback env.fallbackFetch).2
                (excOutput (runLoop env.sessionId env.events).idled
                    env.streamExc env.abortedAtCatch).2).countP
              isAssistantErrorEvt ≤ 1 := by
          cases hs : (runLoop env.sessionId env.events).sessionError with
          | some m2 =>
            rw [promptOutput_empty_of_sessionError]
            have hle := Nat.le_trans
              (List.countP_le_length isAssistantErrorEvt)
              (termOutput_length (some m2)
                (fallbackOutput (runLoop env.sessionId env.events).sawDelta
                    env.abortedAtFallback env.fallbackFetch).2
                (excOutput (runLoop env.sessionId env.events).idled
                    env.streamExc env.abortedAtCatch).2)
            simpa using hle
          | none =>
            have hterm : (termOutput none
                (fallbackOutput (runLoop env.sessionId env.events).sawDelta
                    env.abortedAtFallback env.fallbackFetch).2
                (excOutput (runLoop env.sessionId env.events).idled
                    env.streamExc env.abortedAtCatch).2).countP
                isAssistantErrorEvt = 0 := by
              by_cases hc : (fallbackOutput
                  (runLoop env.sessionId env.events).sawDelta
                  env.abortedAtFallback env.fallbackFetch).2 = false ∧
                  (excOutput (runLoop env.sessionId env.events).idled
                    env.streamExc env.abortedAtCatch).2 = true <;>
                simp [termOutput, hc, isAssistantErrorEvt]
            rw [hterm]
            have hle := Nat.le_trans
              (List.countP_le_length isAssistantErrorEvt)
              (promptOutput_length env.promptError none env.abortedAtPrompt)
            simpa using hle
        simp only [List.countP_cons, List.countP_append, List.countP_nil,
          hAass, hBass, hDass, hEass, isAssistantErrorEvt]
        norm_num
        omega
  · intro hv
    unfold chatStreamTurn
    rw [hv]
    simp

theorem runLoopAux_sawDelta_of_out_nil (sessionId : String) :
    ∀ (events : List BackEvent) (se : Option String) (seen : List String),
      (runLoopAux sessionId events false se seen).out = [] →
      (runLoopAux sessionId events false se seen).sawDelta = false := by
  intro events
  induction events with
  | nil => intro se seen _; rfl
  | cons ev rest ih =>
    intro se seen hout
    cases ev with
    | textPart sid d =>
      by_cases h : sid = sessionId ∧ d ≠ ""
      · rw [runLoopAux, if_pos h] at hout
        simp at hout
      · rw [runLoopAux, if_neg h] at hout ⊢
        exact ih _ _ hout
    | toolPart p =>
      by_cases h : p.sid = sessionId
      · rw [runLoopAux, if_pos h] at hout
        simp at hout
      · rw [runLoopAux, if_neg h] at hout ⊢
        exact ih _ _ hout
    | sessionErrorEvt sid m =>
      by_cases h : sid = "" ∨ sid = sessionId
      · rw [runLoopAux, if_pos h] at hout ⊢
        exact ih _ _ hout
      · rw [runLoopAux, if_neg h] at hout ⊢
        exact ih _ _ hout
    | idle sid =>
      by_cases h : sid = sessionId
      · rw [runLoopAux, if_pos h]
      · rw [runLoopAux, if_neg h] at hout ⊢
        exact ih _ _ hout
    | other =>
      rw [runLoopAux] at hout ⊢
      exact ih _ _ hout

/-- The environment of a turn posted without a `message` body field. -/
def c2CexEnv : TurnEnv :=
  ⟨none, none, "s1", [], none, none, false, false, false, false, none, none⟩

/-- C2 counterexample: on the missing-`message` validation branch the
handler writes a single `error` line and ends the response — the outward
sequence contains no `done` at all, contradicting "every request to the
streaming chat endpoint, including fatal failure paths, contains exactly one
`done`". -/
theorem chatStream_missing_message_counterexample :
    c2CexEnv.WF ∧
      chatStreamTurn c2CexEnv = [OutEvent.error missingMessageError] ∧
      (chatStreamTurn c2CexEnv).countP isDone = 0 := by
  exact ⟨by decide, rfl, rfl⟩

/-- A validated turn environment with one delta and a clean idle end. -/
def c2OkEnv : TurnEnv :=
  ⟨some "hello", none, "s1",
    [BackEvent.textPart "s1" "hi", BackEvent.idle "s1"],
    none, none, false, false, false, false, some [], some []⟩

/-- C2 witness: the protocol theorem applied to a concrete validated turn
and to the concrete missing-message turn. -/
theorem chatStream_protocol_spec_witness :
    (chatStreamTurn c2OkEnv).countP isDone = 1 ∧
      (chatStreamTurn c2OkEnv).getLast? = some OutEvent.done ∧
      (chatStreamTurn c2OkEnv).countP isErrorEvt ≤ 1 ∧
      (chatStreamTurn c2OkEnv).countP isAssistantErrorEvt ≤ 1 ∧
      chatStreamTurn c2CexEnv = [OutEvent.error missingMessageError] := by
  have h1 := (chatStream_protocol_spec c2OkEnv).1 rfl
  have h2 := (chatStream_protocol_spec c2CexEnv).2 rfl
  exact ⟨h1.1, h1.2.1, h1.2.2.1, h1.2.2.2, h2⟩

/-- The environment of a turn whose client disconnects 2s in, before any
delta: the abort signal fires, the subscription loop throws, and every
later read of the signal sees it fired. -/
def c4CexEnv : TurnEnv :=
  ⟨some "hello", none, "s1", [], some "This operation was aborted", none,
    true, true, true, true, none, none⟩

/-- C4 counterexample: a pre-delta client disconnect does NOT end the stream
with just `meta`, `done` — the handler's `aborted` variable makes the
`!sawDelta && aborted` terminal branch fire, so the outward stream is
`meta`, `error "Timed out after 120s"`, `done`: the timeout message is not
reserved for deadline expiry. -/
theorem chatStream_disconnect_counterexample :
    c4CexEnv.WF ∧ c4CexEnv.events = [] ∧
      chatStreamTurn c4CexEnv =
        [OutEvent.meta "s1", OutEvent.error "Timed out after 120s",
          OutEvent.done] := by
  exact ⟨by decide, rfl, rfl⟩

/-- C4 (amended): when the abort signal fires before any delta and nothing
was streamed, the turn ends `meta`, `error "Timed out after 120s"`, `done`
whenever the subscription loop ends by an exception (the abort aborts the
subscription fetch) — regardless of whether the abort came from a client
disconnect or the 120s deadline; if the loop instead ends without throwing,
the turn ends with just `meta`, `done`. -/
theorem chatStream_abort_before_delta_spec (env : TurnEnv) (hwf : env.WF)
    (hmsg : validMessage env.message = true)
    (houter : env.outerFailure = none)
    (hout : (runLoop env.sessionId env.events).out = [])
    (hse : (runLoop env.sessionId env.events).sessionError = none) :
    (∀ m, env.streamExc = some m →
      (runLoop env.sessionId env.events).idled = false →
      env.abortedAtCatch = true →
      chatStreamTurn env =
        [OutEvent.meta env.sessionId,
          OutEvent.error "Timed out after 120s", OutEvent.done]) ∧
      (env.streamExc = none → env.abortedAtPrompt = true →
        chatStreamTurn env =
          [OutEvent.meta env.sessionId, OutEvent.done]) := by
  have hsd : (runLoop env.sessionId env.events).sawDelta = false :=
    runLoopAux_sawDelta_of_out_nil env.sessionId env.events none [] hout
  constructor
  · intro m hexc hidle hab1
    have hab2 : env.abortedAtPrompt = true := hwf.1 hab1
    have hab3 : env.abortedAtFallback = true := hwf.2.1 hab2
    have hab4 : env.abortedAtToolPass = true := hwf.2.2 hab3
    have hexcEq : excOutput (runLoop env.sessionId env.events).idled
        env.streamExc env.abortedAtCatch = ([], true) := by
      rw [hidle, hexc, hab1]
      simp [excOutput]
    have hpOut : promptOutput env.promptError
        (runLoop env.sessionId env.events).sessionError
        env.abortedAtPrompt = [] := by
      rw [hse, hab2]
      cases env.promptError <;> simp [promptOutput]
    have hfb : fallbackOutput (runLoop env.sessionId env.events).sawDelta
        env.abortedAtFallback env.fallbackFetch =
        ([], (runLoop env.sessionId env.events).sawDelta) := by
      rw [hab3]
      simp [fallbackOutput]
    have hpass : passOutput env.abortedAtToolPass env.toolPassFetch
        (runLoop env.sessionId env.events).seen = [] := by
      rw [hab4]
      simp [passOutput]
    have hterm : termOutput (runLoop env.sessionId env.events).sessionError
        (fallbackOutput (runLoop env.sessionId env.events).sawDelta
            env.abortedAtFallback env.fallbackFetch).2
        (excOutput (runLoop env.sessionId env.events).idled env.streamExc
            env.abortedAtCatch).2 =
        [OutEvent.error "Timed out after 120s"] := by
      rw [hse, hexcEq, hfb, hsd]
      simp [termOutput]
    rw [chatStreamTurn_valid env hmsg houter, hout, hterm, hexcEq, hpOut,
      hfb, hpass]
    rfl
  · intro hexc hab2
    have hab3 : env.abortedAtFallback = true := hwf.2.1 hab2
    have hab4 : env.abortedAtToolPass = true := hwf.2.2 hab3
    have hexcEq : excOutput (runLoop env.sessionId env.events).idled
        env.streamExc env.abortedAtCatch = ([], false) := by
      rw [hexc]
      by_cases hi : (runLoop env.sessionId env.events).idled <;>
        simp [excOutput, hi]
    have hpOut : promptOutput env.promptError
        (runLoop env.sessionId env.events).sessionError
        env.abortedAtPrompt = [] := by
      rw [hse, hab2]
      cases env.promptError <;> simp [promptOutput]
    have hfb : fallbackOutput (runLoop env.sessionId env.events).sawDelta
        env.abortedAtFallback env.fallbackFetch =
        ([], (runLoop env.sessionId env.events).sawDelta) := by
      rw [hab3]
      simp [fallbackOutput]
    have hpass : passOutput env.abortedAtToolPass env.toolPassFetch
        (runLoop env.sessionId env.events).seen = [] := by
      rw [hab4]
      simp [passOutput]
    have hterm : termOutput (runLoop env.sessionId env.events).sessionError
        (fallbackOutput (runLoop env.sessionId env.events).sawDelta
            env.abortedAtFallback env.fallbackFetch).2
        (excOutput (runLoop env.sessionId env.events).idled env.streamExc
            env.abortedAtCatch).2 = [] := by
      rw [hse, hexcEq, hfb]
      simp [termOutput]
    rw [chatStreamTurn_valid env hmsg houter, hout, hterm, hexcEq, hpOut,
      hfb, hpass]
    rfl

/-- C4 witness: the amended theorem at the concrete disconnect environment
of the counterexample and at a clean-end variant. -/
theorem chatStream_abort_before_delta_spec_witness :
    chatStreamTurn c4CexEnv =
        [OutEvent.meta "s1", OutEvent.error "Timed out after 120s",
          OutEvent.done] ∧
      chatStreamTurn
          ⟨some "hello", none, "s1", [], none, none, false, true, true,
            true, none, none⟩ =
        [OutEvent.meta "s1", OutEvent.done] := by
  have h1 := (chatStream_abort_before_delta_spec c4CexEnv (by decide) rfl
    rfl rfl rfl).1 "This operation was aborted" rfl rfl rfl
  have h2 := (chatStream_abort_before_delta_spec
    ⟨some "hello", none, "s1", [], none, none, false, true, true, true,
      none, none⟩ (by decide) rfl rfl rfl rfl).2 rfl rfl
  exact ⟨h1, h2⟩

/-- C5: if live streaming produced no delta (`sawDelta` false after the
loop) and the abort signal has not fired by the tool pass (hence, by
monotonicity, at no earlier read), and the messages fetch returns the last
message's parts with non-empty extracted text, then the outward sequence
contains exactly one `delta`, carrying that full text. -/
theorem chatStream_fallback_delta_spec (env : TurnEnv) (hwf : env.WF)
    (hmsg : validMessage env.message = true)
    (houter : env.outerFailure = none)
    (hnd : (runLoop env.sessionId env.events).sawDelta = false)
    (hab : env.abortedAtToolPass = false)
    (parts : List MsgPart) (hf : env.fallbackFetch = some parts)
    (ht : extractText parts ≠ "") :
    (chatStreamTurn env).countP isDelta = 1 ∧
      OutEvent.delta (extractText parts) ∈ chatStreamTurn env := by
  have hab3 : env.abortedAtFallback = false := by
    cases h3 : env.abortedAtFallback
    · rfl
    · rw [hwf.2.2 h3] at hab
      exact absurd hab (by simp)
  have hzero : ∀ (l : List OutEvent) (p : OutEvent → Bool),
      (∀ e ∈ l, p e = false) → l.countP p = 0 := by
    intro l p h
    exact List.countP_eq_zero.mpr (fun a ha => by simp [h a ha])
  have hfbEq : fallbackOutput (runLoop env.sessionId env.events).sawDelta
      env.abortedAtFallback env.fallbackFetch =
      ([OutEvent.delta (extractText parts)], true) := by
    rw [hnd, hab3, hf]
    simp [fallbackOutput, ht]
  have hAd : ((runLoop env.sessionId env.events).out).countP isDelta = 0 :=
    runLoopAux_no_delta_of_not_sawDelta env.sessionId env.events false none
      [] hnd
  have hBd : ((excOutput (runLoop env.sessionId env.events).idled
      env.streamExc env.abortedAtCatch).1).countP isDelta = 0 :=
    hzero _ _ (fun e he => by
      obtain ⟨m2, rfl⟩ := excOutput_mem _ _ _ e he; rfl)
  have hCd : (promptOutput env.promptError
      (runLoop env.sessionId env.events).sessionError
      env.abortedAtPrompt).countP isDelta = 0 :=
    hzero _ _ (fun e he => by
      obtain ⟨m2, rfl⟩ := promptOutput_mem _ _ _ e he; rfl)
  have hEd : (passOutput env.abortedAtToolPass env.toolPassFetch
      (runLoop env.sessionId env.events).seen).countP isDelta = 0 := by
    refine hzero _ _ (fun e he => ?_)
    unfold passOutput at he
    rw [hab] at he
    cases hfp : env.toolPassFetch with
    | none => rw [hfp] at he; simp at he
    | some parts2 =>
      rw [hfp] at he
      simp only [Bool.false_eq_true, if_false] at he
      have hkind := emitMissingTools_kinds parts2 _ e he
      cases e <;> first | rfl | simp [isToolEvt] at hkind
  have hFd : (termOutput (runLoop env.sessionId env.events).sessionError
      true
      (excOutput (runLoop env.sessionId env.events).idled env.streamExc
          env.abortedAtCatch).2).countP isDelta = 0 :=
    hzero _ _ (fun e he => by
      rcases termOutput_mem _ _ _ e he with ⟨m2, rfl⟩ | rfl <;> rfl)
  constructor
  · rw [chatStreamTurn_valid env hmsg houter, hfbEq]
    dsimp only
    simp only [List.countP_cons, List.countP_append, List.countP_nil,
      hAd, hBd, hCd, hEd, hFd, isDelta]
    norm_num
  · rw [chatStreamTurn_valid env hmsg houter, hfbEq]
    refine List.mem_cons_of_mem _ ?_
    refine List.mem_append_left _ ?_
    refine List.mem_append_left _ ?_
    refine List.mem_append_left _ ?_
    refine List.mem_append_right _ ?_
    simp

/-- Concrete environment for the C5 scenario: provider streams nothing, the
turn idles, and the fetched final message holds the full text. -/
def c5Env : TurnEnv :=
  ⟨some "hi", none, "s1", [BackEvent.idle "s1"], none, none, false, false,
    false, false, some [MsgPart.text "full reply"], some []⟩

/-- C5 witness: the fallback theorem at the concrete no-streaming turn. -/
theorem chatStream_fallback_delta_spec_witness :
    (chatStreamTurn c5Env).countP isDelta = 1 ∧
      OutEvent.delta (extractText [MsgPart.text "full reply"]) ∈
        chatStreamTurn c5Env := by
  exact chatStream_fallback_delta_spec c5Env (by decide) rfl rfl rfl rfl
    [MsgPart.text "full reply"] rfl (by decide)

/-- C6: per call id, the outward tool-event count equals the number of live
tool-part events for that session with that synthesized id (each update is
re-emitted, so `pending` then `completed` gives two `tool` events) whenever
at least one live update exists — the completeness pass skips ids already
seen live; and when no live update exists, at most one `tool` event for
that id is emitted (the pass de-duplicates within itself). -/
theorem chatStream_tool_dedup_spec (env : TurnEnv) (id : String)
    (hmsg : validMessage env.message = true)
    (houter : env.outerFailure = none) :
    (0 < eventToolCount env.sessionId id env.events →
      (chatStreamTurn env).countP (isToolWithId id) =
        eventToolCount env.sessionId id env.events) ∧
      (eventToolCount env.sessionId id env.events = 0 →
        (chatStreamTurn env).countP (isToolWithId id) ≤ 1) := by
  have hzero : ∀ (l : List OutEvent) (p : OutEvent → Bool),
      (∀ e ∈ l, p e = false) → l.countP p = 0 := by
    intro l p h
    exact List.countP_eq_zero.mpr (fun a ha => by simp [h a ha])
  have hA : ((runLoop env.sessionId env.events).out).countP
      (isToolWithId id) = eventToolCount env.sessionId id env.events :=
    runLoopAux_tool_count env.sessionId id env.events false none []
  have hB : ((excOutput (runLoop env.sessionId env.events).idled
      env.streamExc env.abortedAtCatch).1).countP (isToolWithId id) = 0 :=
    hzero _ _ (fun e he => by
      obtain ⟨m2, rfl⟩ := excOutput_mem _ _ _ e he; rfl)
  have hC : (promptOutput env.promptError
      (runLoop env.sessionId env.events).sessionError
      env.abortedAtPrompt).countP (isToolWithId id) = 0 :=
    hzero _ _ (fun e he => by
      obtain ⟨m2, rfl⟩ := promptOutput_mem _ _ _ e he; rfl)
  have hD : ((fallbackOutput (runLoop env.sessionId env.events).sawDelta
      env.abortedAtFallback env.fallbackFetch).1).countP
      (isToolWithId id) = 0 :=
    hzero _ _ (fun e he => by
      obtain ⟨t, rfl⟩ := fallbackOutput_mem _ _ _ e he; rfl)
  have hF : (termOutput (runLoop env.sessionId env.events).sessionError
      (fallbackOutput (runLoop env.sessionId env.events).sawDelta
          env.abortedAtFallback env.fallbackFetch).2
      (excOutput (runLoop env.sessionId env.events).idled env.streamExc
          env.abortedAtCatch).2).countP (isToolWithId id) = 0 :=
    hzero _ _ (fun e he => by
      rcases termOutput_mem _ _ _ e he with ⟨m2, rfl⟩ | rfl <;> rfl)
  have hEle : (passOutput env.abortedAtToolPass env.toolPassFetch
      (runLoop env.sessionId env.events).seen).countP (isToolWithId id)
      ≤ 1 := by
    unfold passOutput
    by_cases hab : env.abortedAtToolPass
    · simp [hab]
    · cases hfp : env.toolPassFetch with
      | none => simp [hab]
      | some parts2 =>
        simp only [hab, Bool.false_eq_true, if_false]
        exact (emitMissingTools_count id parts2
          (runLoop env.sessionId env.events).seen).2
  have hEzero : id ∈ (runLoop env.sessionId env.events).seen →
      (passOutput env.abortedAtToolPass env.toolPassFetch
        (runLoop env.sessionId env.events).seen).countP
        (isToolWithId id) = 0 := by
    intro hmem
    unfold passOutput
    by_cases hab : env.abortedAtToolPass
    · simp [hab]
    · cases hfp : env.toolPassFetch with
      | none => simp [hab]
      | some parts2 =>
        simp only [hab, Bool.false_eq_true, if_false]
        exact (emitMissingTools_count id parts2
          (runLoop env.sessionId env.events).seen).1 hmem
  constructor
  · intro hpos
    have hmem : id ∈ (runLoop env.sessionId env.events).seen :=
      (runLoopAux_seen_mem env.sessionId id env.events false none []).mpr
        (Or.inr hpos)
    rw [chatStreamTurn_valid env hmsg houter]
    simp only [List.countP_cons, List.countP_append, List.countP_nil,
      hA, hB, hC, hD, hF, hEzero hmem, isToolWithId]
    norm_num
  · intro hz
    rw [chatStreamTurn_valid env hmsg houter]
    simp only [List.countP_cons, List.countP_append, List.countP_nil,
      hA, hB, hC, hD, hF, hz, isToolWithId]
    norm_num
    omega

/-- Concrete C6 scenario: two live tool-part updates share the synthesized
call id `search-m1` (statuses pending then completed), and the completeness
pass sees the same id in the fetched message. -/
def c6Env : TurnEnv :=
  ⟨some "hi", none, "s1",
    [BackEvent.toolPart ⟨"s1", "", "", "search", "m1", "pending", "t"⟩,
      BackEvent.toolPart ⟨"s1", "", "", "search", "m1", "completed", "t"⟩,
      BackEvent.idle "s1"],
    none, none, false, false, false, false, some [],
    some [MsgPart.toolMP "" "" "search" "m1" "completed" "t"]⟩

/-- C6 witness: the dedup theorem at the pending/completed scenario — the
outward stream carries exactly two `tool` events for `search-m1`, never
three. -/
theorem chatStream_tool_dedup_spec_witness :
    eventToolCount "s1" "search-m1" c6Env.events = 2 ∧
      (chatStreamTurn c6Env).countP (isToolWithId "search-m1") = 2 := by
  have h := (chatStream_tool_dedup_spec c6Env "search-m1" rfl rfl).1
    (by decide)
  exact ⟨rfl, by rw [h]; rfl⟩
